import Mathlib

/-!
Verification of the OpenContrails visualization notebooks.

The repository holds two notebooks: `load_tfrecords.ipynb` (reads serialized
examples keyed by band name) and a NetCDF notebook (reads raw GOES radiances
keyed by band number).  Both composite three brightness-temperature bands into
a false-color "ash" image.  Floating point values are modelled as rationals,
numpy arrays as functions from an index type `ι` to `ℚ` (numpy arithmetic on
arrays is pointwise), and the natural logarithm of numpy is an abstract
function parameter `log : ℚ → ℚ` shared by all formulas that mention it.
-/

namespace Contrails

/-- Elementwise `np.clip(x, lo, hi)`. -/
def np_clip (x lo hi : ℚ) : ℚ := min (max x lo) hi

/-- `np.stack([r, g, b], axis=-1)` : the three channel arrays become the last
axis of the result. -/
def np_stack3 {ι : Type} (r g b : ι → ℚ) : ι → Fin 3 → ℚ :=
  fun i c => if c.val = 0 then r i else if c.val = 1 then g i else b i

namespace Tfrecords

/-- `_T11_BOUNDS = (243, 303)` from `load_tfrecords.ipynb`. -/
def _T11_BOUNDS : ℚ × ℚ := (243, 303)

/-- `_CLOUD_TOP_TDIFF_BOUNDS = (-4, 5)` from `load_tfrecords.ipynb`. -/
def _CLOUD_TOP_TDIFF_BOUNDS : ℚ × ℚ := (-4, 5)

/-- `_TDIFF_BOUNDS = (-4, 2)` from `load_tfrecords.ipynb`. -/
def _TDIFF_BOUNDS : ℚ × ℚ := (-4, 2)

/-- `normalize_range(data, bounds)` of `load_tfrecords.ipynb`:
`(data - bounds[0]) / (bounds[1] - bounds[0])`. -/
def normalize_range (data : ℚ) (bounds : ℚ × ℚ) : ℚ :=
  (data - bounds.1) / (bounds.2 - bounds.1)

/-- The local binding `r` of `false_color_image` in `load_tfrecords.ipynb`:
`normalize_range(bt['data_12um'] - bt['data_11um'], _TDIFF_BOUNDS)`. -/
def fci_r {ι : Type} (bt : String → ι → ℚ) : ι → ℚ :=
  fun i => normalize_range (bt "data_12um" i - bt "data_11um" i) _TDIFF_BOUNDS

/-- The local binding `g` of `false_color_image` in `load_tfrecords.ipynb`:
`normalize_range(bt['data_11um'] - bt['cloud_top'], _CLOUD_TOP_TDIFF_BOUNDS)`. -/
def fci_g {ι : Type} (bt : String → ι → ℚ) : ι → ℚ :=
  fun i => normalize_range (bt "data_11um" i - bt "cloud_top" i) _CLOUD_TOP_TDIFF_BOUNDS

/-- The local binding `b` of `false_color_image` in `load_tfrecords.ipynb`:
`normalize_range(bt['data_11um'], _T11_BOUNDS)`. -/
def fci_b {ι : Type} (bt : String → ι → ℚ) : ι → ℚ :=
  fun i => normalize_range (bt "data_11um" i) _T11_BOUNDS

/-- `false_color_image(brightness_temperatures)` of `load_tfrecords.ipynb`:
`np.clip(np.stack([r, g, b], axis=-1), 0, 1)`.  The input dictionary is
modelled as a total map from band names to arrays. -/
def false_color_image {ι : Type} (bt : String → ι → ℚ) : ι → Fin 3 → ℚ :=
  fun i c => np_clip (np_stack3 (fci_r bt) (fci_g bt) (fci_b bt) i c) 0 1

end Tfrecords

namespace NetCDF

/-- `_T11_BOUNDS = (243, 303)` from the NetCDF notebook. -/
def _T11_BOUNDS : ℚ × ℚ := (243, 303)

/-- `_CLOUD_TOP_TDIFF_BOUNDS = (-4, 5)` from the NetCDF notebook. -/
def _CLOUD_TOP_TDIFF_BOUNDS : ℚ × ℚ := (-4, 5)

/-- `_TDIFF_BOUNDS = (-4, 2)` from the NetCDF notebook. -/
def _TDIFF_BOUNDS : ℚ × ℚ := (-4, 2)

/-- `normalize_range(data, bounds)` of the NetCDF notebook. -/
def normalize_range (data : ℚ) (bounds : ℚ × ℚ) : ℚ :=
  (data - bounds.1) / (bounds.2 - bounds.1)

/-- The local binding `r` of `false_color_image` in the NetCDF notebook:
`normalize_range(bt[15] - bt[14], _TDIFF_BOUNDS)`. -/
def fci_r {ι : Type} (bt : ℕ → ι → ℚ) : ι → ℚ :=
  fun i => normalize_range (bt 15 i - bt 14 i) _TDIFF_BOUNDS

/-- The local binding `g` of `false_color_image` in the NetCDF notebook:
`normalize_range(bt[14] - bt[11], _CLOUD_TOP_TDIFF_BOUNDS)`. -/
def fci_g {ι : Type} (bt : ℕ → ι → ℚ) : ι → ℚ :=
  fun i => normalize_range (bt 14 i - bt 11 i) _CLOUD_TOP_TDIFF_BOUNDS

/-- The local binding `b` of `false_color_image` in the NetCDF notebook:
`normalize_range(bt[14], _T11_BOUNDS)`. -/
def fci_b {ι : Type} (bt : ℕ → ι → ℚ) : ι → ℚ :=
  fun i => normalize_range (bt 14 i) _T11_BOUNDS

/-- `false_color_image(brightness_temperatures)` of the NetCDF notebook, the
dictionary keyed by GOES band number. -/
def false_color_image {ι : Type} (bt : ℕ → ι → ℚ) : ι → Fin 3 → ℚ :=
  fun i c => np_clip (np_stack3 (fci_r bt) (fci_g bt) (fci_b bt) i c) 0 1

end NetCDF

/-- The dictionary `{'data_11um': t11um, 'data_12um': t12um, 'cloud_top':
tcloudtop}` (all other band names mapped to the zero array). -/
def tf_dict {ι : Type} (t11um t12um tcloudtop : ι → ℚ) : String → ι → ℚ :=
  fun k =>
    if k = "data_11um" then t11um
    else if k = "data_12um" then t12um
    else if k = "cloud_top" then tcloudtop
    else fun _ => 0

/-- The dictionary `{14: t11um, 15: t12um, 11: tcloudtop}` (all other band
numbers mapped to the zero array). -/
def nc_dict {ι : Type} (t11um t12um tcloudtop : ι → ℚ) : ℕ → ι → ℚ :=
  fun b =>
    if b = 14 then t11um
    else if b = 15 then t12um
    else if b = 11 then tcloudtop
    else fun _ => 0

/-- Concrete input dictionary over a one-point index, giving each of the nine
GOES bands a distinct value whose pairwise differences never hit the value of
band `data_11um` (300). -/
def c4_input : String → Unit → ℚ :=
  fun k _ =>
    if k = "upper_vapor" then 1
    else if k = "mid_vapor" then 2
    else if k = "low_vapor" then 3
    else if k = "cloud_top" then 5
    else if k = "ozone" then 8
    else if k = "data_10um" then 13
    else if k = "data_11um" then 300
    else if k = "data_12um" then 21
    else if k = "co2" then 34
    else 0

namespace Tfrecords

/-- The tuple `goes_bands` of `parse_example` in `load_tfrecords.ipynb`
(GOES-16 ABI bands 8 to 16). -/
def goes_bands : List String :=
  ["upper_vapor", "mid_vapor", "low_vapor", "cloud_top", "ozone",
   "data_10um", "data_11um", "data_12um", "co2"]

end Tfrecords

namespace NetCDF

/-- The per-band NetCDF dataset fields the NetCDF notebook reads: the four
Planck calibration constants and the radiance array `Rad`. -/
structure GoesDataset (ι : Type) where
  planck_fk1 : ℚ
  planck_fk2 : ℚ
  planck_bc1 : ℚ
  planck_bc2 : ℚ
  Rad : ι → ℚ

/-- The radiance-to-brightness-temperature conversion of the NetCDF notebook:
`(dataset.planck_fk2 / np.log(dataset.planck_fk1 / dataset.Rad + 1)
  - dataset.planck_bc1) / dataset.planck_bc2`,
with `np.log` modelled by the abstract function parameter `log`. -/
def brightness_temperature {ι : Type} (log : ℚ → ℚ) (ds : GoesDataset ι) : ι → ℚ :=
  fun i =>
    (ds.planck_fk2 / log (ds.planck_fk1 / ds.Rad i + 1) - ds.planck_bc1) / ds.planck_bc2

/-- The band-specific calibration formula exactly as the claim words it:
`(fk2 / ln(fk1 / Rad + 1) - bc1) / bc2`, with the natural logarithm `ln`
modelled by the same abstract function `log`. -/
def calibration_formula_spec (log : ℚ → ℚ) (fk1 fk2 bc1 bc2 rad : ℚ) : ℚ :=
  (fk2 / log (fk1 / rad + 1) - bc1) / bc2

/-- The keys of the `paths` dictionary of the NetCDF notebook, in insertion
order: GOES bands 11, 14 and 15. -/
def bt_band_ids : List ℕ := [11, 14, 15]

/-- The body of the loading loop of the NetCDF notebook: for each band id in
turn, open the dataset — an operation that can fail, modelled by `Except` —
and append that band's brightness temperatures to the dictionary built so
far; a failure aborts the loop with the underlying error. -/
def load_bt_loop {ι E : Type} (log : ℚ → ℚ)
    (openDataset : ℕ → Except E (GoesDataset ι)) :
    List ℕ → List (ℕ × (ι → ℚ)) → Except E (List (ℕ × (ι → ℚ)))
  | [], acc => Except.ok acc
  | band_id :: rest, acc =>
    match openDataset band_id with
    | Except.error e => Except.error e
    | Except.ok ds =>
      load_bt_loop log openDataset rest (acc ++ [(band_id, brightness_temperature log ds)])

/-- The `brightness_temperatures` dictionary-building loop of the NetCDF
notebook, over the three band ids of `paths`, starting from the empty
dictionary. -/
def load_brightness_temperatures {ι E : Type} (log : ℚ → ℚ)
    (openDataset : ℕ → Except E (GoesDataset ι)) :
    Except E (List (ℕ × (ι → ℚ))) :=
  load_bt_loop log openDataset bt_band_ids []

end NetCDF

namespace Tfrecords

/-- A raw feature of a serialized `tf.train.Example`: a bytes list, an int64
list, or a float list. -/
inductive Raw where
  | bytesList : List (List ℕ) → Raw
  | int64List : List ℤ → Raw
  | floatList : List ℚ → Raw

/-- The feature declarations `parse_example` uses:
`tf.io.FixedLenFeature([], tf.string / tf.int64 / tf.float32)` and
`tf.io.VarLenFeature(tf.int64)`. -/
inductive FType where
  | string : FType
  | int64 : FType
  | float32 : FType
  | varlenInt64 : FType
  deriving DecidableEq

/-- A parsed feature value: a string (bytes) tensor, an int64 scalar, a
float32 scalar, an int64 list, or a tensor decoded by `tf.io.parse_tensor`
with dtype `tf.double` (type `D`) or `tf.int32` (type `I`). -/
inductive TVal (D I : Type) where
  | str : List ℕ → TVal D I
  | i64 : ℤ → TVal D I
  | f32 : ℚ → TVal D I
  | i64s : List ℤ → TVal D I
  | f64 : D → TVal D I
  | i32 : I → TVal D I

/-- The `feature_spec` dictionary of `parse_example`, in python insertion
order: the nine GOES bands as fixed-length string features, then the
`update` entries. -/
def feature_spec : List (String × FType) :=
  goes_bands.map (fun band => (band, FType.string)) ++
  [("brightness_temperature_difference", FType.string),
   ("human_individual_masks", FType.string),
   ("human_pixel_masks", FType.string),
   ("n_times_before", FType.int64),
   ("n_times_after", FType.int64),
   ("projection_wkt", FType.string),
   ("col_min", FType.float32),
   ("row_min", FType.float32),
   ("col_size", FType.float32),
   ("row_size", FType.float32),
   ("timestamp", FType.int64),
   ("satellite_scan_starts", FType.varlenInt64)]

/-- The keys of the fixed record schema, in the order `parse_example` returns
them. -/
def record_keys : List String :=
  goes_bands ++
  ["brightness_temperature_difference", "human_individual_masks",
   "human_pixel_masks", "n_times_before", "n_times_after", "projection_wkt",
   "col_min", "row_min", "col_size", "row_size", "timestamp",
   "satellite_scan_starts"]

/-- Reading one declared feature from the serialized example, as
`tf.io.parse_single_example` does: a fixed-length feature must be present
with the declared type and exactly one element; a variable-length int64
feature yields its elements, or the empty list when the field is absent. -/
def readFeature {D I : Type} (ex : String → Option Raw) (kt : String × FType) :
    Option (TVal D I) :=
  match kt.2 with
  | FType.string =>
    match ex kt.1 with
    | some (Raw.bytesList [s]) => some (TVal.str s)
    | _ => none
  | FType.int64 =>
    match ex kt.1 with
    | some (Raw.int64List [n]) => some (TVal.i64 n)
    | _ => none
  | FType.float32 =>
    match ex kt.1 with
    | some (Raw.floatList [q]) => some (TVal.f32 q)
    | _ => none
  | FType.varlenInt64 =>
    match ex kt.1 with
    | some (Raw.int64List l) => some (TVal.i64s l)
    | none => some (TVal.i64s [])
    | _ => none

/-- `tf.io.parse_single_example` over a list of declared features: each is
read in order and a failure (missing or ill-typed field) raises, modelled by
`none`. -/
def parseFields {D I : Type} (ex : String → Option Raw) :
    List (String × FType) → Option (List (String × TVal D I))
  | [] => some []
  | kt :: rest =>
    (readFeature ex kt).bind fun v =>
      (parseFields ex rest).map fun fs => (kt.1, v) :: fs

/-- `features = tf.io.parse_single_example(serialized_example, feature_spec)`. -/
def parse_single_example {D I : Type} (ex : String → Option Raw) :
    Option (List (String × TVal D I)) :=
  parseFields ex feature_spec

/-- `features[key] = tf.io.parse_tensor(features[key], dtype)`: replace the
value bound to `key`, which must be a string tensor that the decoder `dec`
accepts; a missing key or an undecodable value raises (`none`). -/
def parse_tensor_at {D I T : Type} (dec : List ℕ → Option T) (mk : T → TVal D I)
    (k : String) : List (String × TVal D I) → Option (List (String × TVal D I))
  | [] => none
  | (k2, v) :: rest =>
    if k2 = k then
      match v with
      | TVal.str s => (dec s).map fun t => (k2, mk t) :: rest
      | _ => none
    else
      (parse_tensor_at dec mk k rest).map fun rest2 => (k2, v) :: rest2

/-- The decoding loop `for key in [...]`, applying `parse_tensor_at` to each
key in turn. -/
def decode_tensors {D I T : Type} (dec : List ℕ → Option T) (mk : T → TVal D I) :
    List String → List (String × TVal D I) → Option (List (String × TVal D I))
  | [], fs => some fs
  | k :: ks, fs =>
    (parse_tensor_at dec mk k fs).bind fun fs2 => decode_tensors dec mk ks fs2

/-- `[*goes_bands, 'brightness_temperature_difference']`, the keys decoded as
double tensors. -/
def tensor_keys : List String :=
  goes_bands ++ ["brightness_temperature_difference"]

/-- `parse_example(serialized_example)` of `load_tfrecords.ipynb`: parse the
fixed feature spec, re-decode the ten band keys as double tensors and the
two mask keys as int32 tensors.  The two `tf.io.parse_tensor` decoders are
the abstract parameters `dec64` and `dec32`. -/
def parse_example {D I : Type} (dec64 : List ℕ → Option D) (dec32 : List ℕ → Option I)
    (ex : String → Option Raw) : Option (List (String × TVal D I)) :=
  (parse_single_example ex).bind fun features =>
    (decode_tensors dec64 TVal.f64 tensor_keys features).bind fun features2 =>
      (parse_tensor_at dec32 TVal.i32 "human_pixel_masks" features2).bind fun features3 =>
        parse_tensor_at dec32 TVal.i32 "human_individual_masks" features3

/-- First-match lookup in an association list: python dictionary access
`d[k]`. -/
def dlookup {α : Type} : List (String × α) → String → Option α
  | [], _ => none
  | (k2, v) :: rest, k => if k2 = k then some v else dlookup rest k

/-- A concrete serialized example holding every declared field with a
well-typed value. -/
def full_example : String → Option Raw :=
  fun k =>
    match dlookup feature_spec k with
    | some FType.string => some (Raw.bytesList [[7]])
    | some FType.int64 => some (Raw.int64List [3])
    | some FType.float32 => some (Raw.floatList [0])
    | some FType.varlenInt64 => some (Raw.int64List [1, 2])
    | none => none

end Tfrecords

/-- The visualization loop of `load_tfrecords.ipynb`, modelled by the list of
examples it displays.  `masksum` is `features['human_pixel_masks'].sum()`:
examples whose mask sums to zero are skipped (`continue`); after a display
`count` is incremented and the loop breaks once `count >= 10`. -/
def visualize_displayed {α : Type} (masksum : α → ℤ) : List α → ℕ → List α
  | [], _ => []
  | features :: rest, count =>
    if masksum features = 0 then visualize_displayed masksum rest count
    else if count + 1 ≥ 10 then [features]
    else features :: visualize_displayed masksum rest (count + 1)

/-- C1: every element of every channel of the image returned by
`false_color_image` lies in the closed interval `[0, 1]`, in both notebooks. -/
theorem false_color_image_in_unit_interval :
    (∀ (ι : Type) (bt : String → ι → ℚ) (i : ι) (c : Fin 3),
      0 ≤ Tfrecords.false_color_image bt i c ∧ Tfrecords.false_color_image bt i c ≤ 1) ∧
    (∀ (ι : Type) (bt : ℕ → ι → ℚ) (i : ι) (c : Fin 3),
      0 ≤ NetCDF.false_color_image bt i c ∧ NetCDF.false_color_image bt i c ≤ 1) := by
  constructor <;> intro ι bt i c <;>
    exact ⟨le_min (le_max_right _ _) zero_le_one, min_le_right _ _⟩

/-- C2 counterexample: `normalize_range` does not clip.  At input `304` with
the bounds pair `(243, 303)` used by the notebooks, the returned value
exceeds `1`. -/
theorem normalize_range_exceeds_one :
    1 < Tfrecords.normalize_range 304 Tfrecords._T11_BOUNDS := by
  norm_num [Tfrecords.normalize_range, Tfrecords._T11_BOUNDS]

/-- C2 amended: each bounds pair used by the notebooks is strictly increasing;
`normalize_range` maps the lower bound to `0`, the upper bound to `1`, sends
inputs inside the bounds into `[0, 1]`, and sends inputs outside the bounds
strictly outside `[0, 1]` (the clipping to `[0, 1]` happens later, inside
`false_color_image`). -/
theorem normalize_range_affine :
    (Tfrecords._T11_BOUNDS.1 < Tfrecords._T11_BOUNDS.2 ∧
     Tfrecords._CLOUD_TOP_TDIFF_BOUNDS.1 < Tfrecords._CLOUD_TOP_TDIFF_BOUNDS.2 ∧
     Tfrecords._TDIFF_BOUNDS.1 < Tfrecords._TDIFF_BOUNDS.2) ∧
    ∀ lo hi x : ℚ, lo < hi →
      Tfrecords.normalize_range lo (lo, hi) = 0 ∧
      Tfrecords.normalize_range hi (lo, hi) = 1 ∧
      (lo ≤ x → x ≤ hi →
        0 ≤ Tfrecords.normalize_range x (lo, hi) ∧ Tfrecords.normalize_range x (lo, hi) ≤ 1) ∧
      (x < lo → Tfrecords.normalize_range x (lo, hi) < 0) ∧
      (hi < x → 1 < Tfrecords.normalize_range x (lo, hi)) := by
  constructor
  · exact ⟨by norm_num [Tfrecords._T11_BOUNDS],
      by norm_num [Tfrecords._CLOUD_TOP_TDIFF_BOUNDS],
      by norm_num [Tfrecords._TDIFF_BOUNDS]⟩
  intro lo hi x hlt
  have hpos : 0 < hi - lo := sub_pos.mpr hlt
  unfold Tfrecords.normalize_range
  refine ⟨by simp, div_self (ne_of_gt hpos), fun h1 h2 => ?_, fun h => ?_, fun h => ?_⟩
  · exact ⟨div_nonneg (sub_nonneg.mpr h1) hpos.le,
      (div_le_one hpos).mpr (sub_le_sub_right h2 lo)⟩
  · exact div_neg_of_neg_of_pos (sub_neg.mpr h) hpos
  · exact (one_lt_div hpos).mpr (by linarith)

/-- C2 amended, witness at the bounds pair `(243, 303)` and input `250`. -/
theorem normalize_range_affine_witness :
    0 ≤ Tfrecords.normalize_range 250 (243, 303) ∧
      Tfrecords.normalize_range 250 (243, 303) ≤ 1 :=
  ((normalize_range_affine.2 243 303 250 (by norm_num)).2.2.1 (by norm_num) (by norm_num))

/-- C3: for every bounds pair `(lo, hi)` with `hi ≠ lo`, `normalize_range`
maps `lo` to `0` and `hi` to `1`. -/
theorem normalize_range_endpoints :
    ∀ lo hi : ℚ, hi ≠ lo →
      Tfrecords.normalize_range lo (lo, hi) = 0 ∧
      Tfrecords.normalize_range hi (lo, hi) = 1 := by
  intro lo hi h
  unfold Tfrecords.normalize_range
  exact ⟨by simp, div_self (sub_ne_zero.mpr h)⟩

/-- C3 witness at the bounds pair `(243, 303)`. -/
theorem normalize_range_endpoints_witness :
    Tfrecords.normalize_range 243 (243, 303) = 0 ∧
      Tfrecords.normalize_range 303 (243, 303) = 1 :=
  normalize_range_endpoints 243 303 (by norm_num)

/-- C4 counterexample: on the concrete input `c4_input`, the (pre-clip) blue
channel of `false_color_image` — which also equals the clipped channel 2 here —
differs from `normalize_range` of every difference of two of the nine GOES
bands, under each of the three fixed bounds pairs.  So the blue channel is not
a band difference: it normalizes the single band `data_11um`. -/
theorem blue_channel_not_a_band_difference :
    Tfrecords.false_color_image c4_input () 2 = Tfrecords.fci_b c4_input () ∧
    (Tfrecords.goes_bands.all fun x => Tfrecords.goes_bands.all fun y =>
      [Tfrecords._T11_BOUNDS, Tfrecords._CLOUD_TOP_TDIFF_BOUNDS,
        Tfrecords._TDIFF_BOUNDS].all fun bnds =>
        decide (Tfrecords.fci_b c4_input () ≠
          Tfrecords.normalize_range (c4_input x () - c4_input y ()) bnds)) = true := by
  constructor
  · show np_clip (Tfrecords.fci_b c4_input ()) 0 1 = Tfrecords.fci_b c4_input ()
    simp only [np_clip, Tfrecords.fci_b, Tfrecords.normalize_range, c4_input,
      Tfrecords._T11_BOUNDS]
    simp only [String.reduceEq, reduceIte]
    norm_num [min_def, max_def]
  · simp only [Tfrecords.goes_bands, c4_input, Tfrecords.fci_b, Tfrecords.normalize_range,
      Tfrecords._T11_BOUNDS, Tfrecords._CLOUD_TOP_TDIFF_BOUNDS, Tfrecords._TDIFF_BOUNDS,
      List.all_cons, List.all_nil, Bool.and_eq_true, decide_eq_true_eq]
    simp only [String.reduceEq, reduceIte]
    norm_num

/-- C4 amended: before the final clip, the red channel is `normalize_range`
of the band difference `data_12um - data_11um` with `_TDIFF_BOUNDS`, the green
channel is `normalize_range` of the band difference `data_11um - cloud_top`
with `_CLOUD_TOP_TDIFF_BOUNDS`, and the blue channel is `normalize_range` of
the single band `data_11um` with `_T11_BOUNDS`; written as the explicit linear
formulas, and the image channels are exactly these values clipped to
`[0, 1]`. -/
theorem false_color_image_channel_formulas :
    ∀ (ι : Type) (bt : String → ι → ℚ) (i : ι),
      Tfrecords.fci_r bt i = (bt "data_12um" i - bt "data_11um" i + 4) / 6 ∧
      Tfrecords.fci_g bt i = (bt "data_11um" i - bt "cloud_top" i + 4) / 9 ∧
      Tfrecords.fci_b bt i = (bt "data_11um" i - 243) / 60 ∧
      Tfrecords.false_color_image bt i 0 = np_clip (Tfrecords.fci_r bt i) 0 1 ∧
      Tfrecords.false_color_image bt i 1 = np_clip (Tfrecords.fci_g bt i) 0 1 ∧
      Tfrecords.false_color_image bt i 2 = np_clip (Tfrecords.fci_b bt i) 0 1 := by
  intro ι bt i
  refine ⟨?_, ?_, ?_, rfl, rfl, rfl⟩ <;>
    norm_num [Tfrecords.fci_r, Tfrecords.fci_g, Tfrecords.fci_b,
      Tfrecords.normalize_range, Tfrecords._TDIFF_BOUNDS,
      Tfrecords._CLOUD_TOP_TDIFF_BOUNDS, Tfrecords._T11_BOUNDS, sub_neg_eq_add]

/-- C5: the two notebooks compute the same composite: their `normalize_range`
functions and the three bounds constants are identical, and on corresponding
dictionaries (band names versus band numbers) the two `false_color_image`
functions return equal images. -/
theorem notebooks_compute_same_composite :
    NetCDF.normalize_range = Tfrecords.normalize_range ∧
    NetCDF._T11_BOUNDS = Tfrecords._T11_BOUNDS ∧
    NetCDF._CLOUD_TOP_TDIFF_BOUNDS = Tfrecords._CLOUD_TOP_TDIFF_BOUNDS ∧
    NetCDF._TDIFF_BOUNDS = Tfrecords._TDIFF_BOUNDS ∧
    ∀ (ι : Type) (t11um t12um tcloudtop : ι → ℚ),
      Tfrecords.false_color_image (tf_dict t11um t12um tcloudtop) =
        NetCDF.false_color_image (nc_dict t11um t12um tcloudtop) := by
  refine ⟨rfl, rfl, rfl, rfl, ?_⟩
  intro ι t11um t12um tcloudtop
  funext i c
  fin_cases c <;> rfl

/-- C9: `false_color_image` depends only on the bands it reads: two input
dictionaries agreeing on `data_12um`, `data_11um` and `cloud_top` (resp. on
band numbers 15, 14 and 11) yield equal images, whatever every other key
holds. -/
theorem false_color_image_noninterference :
    (∀ (ι : Type) (d1 d2 : String → ι → ℚ),
      d1 "data_12um" = d2 "data_12um" →
      d1 "data_11um" = d2 "data_11um" →
      d1 "cloud_top" = d2 "cloud_top" →
      Tfrecords.false_color_image d1 = Tfrecords.false_color_image d2) ∧
    (∀ (ι : Type) (d1 d2 : ℕ → ι → ℚ),
      d1 15 = d2 15 → d1 14 = d2 14 → d1 11 = d2 11 →
      NetCDF.false_color_image d1 = NetCDF.false_color_image d2) := by
  constructor <;>
    · intro ι d1 d2 h1 h2 h3
      funext i c
      simp only [Tfrecords.false_color_image, NetCDF.false_color_image, np_stack3,
        Tfrecords.fci_r, Tfrecords.fci_g, Tfrecords.fci_b,
        NetCDF.fci_r, NetCDF.fci_g, NetCDF.fci_b, h1, h2, h3]

/-- C9 witness: two concrete dictionaries differing on the unread band
`ozone` produce the same image. -/
theorem false_color_image_noninterference_witness :
    Tfrecords.false_color_image (fun k (_ : Unit) => if k = "ozone" then 5 else 1) =
      Tfrecords.false_color_image (fun k (_ : Unit) => if k = "ozone" then 7 else 1) :=
  false_color_image_noninterference.1 Unit _ _ rfl rfl rfl

/-- Parsing the fixed feature spec preserves the declared keys, in order. -/
theorem parseFields_keys {D I : Type} (ex : String → Option Tfrecords.Raw) :
    ∀ (spec : List (String × Tfrecords.FType)) (fs : List (String × Tfrecords.TVal D I)),
      Tfrecords.parseFields ex spec = some fs → fs.map Prod.fst = spec.map Prod.fst := by
  intro spec
  induction spec with
  | nil =>
    intro fs h
    simp only [Tfrecords.parseFields, Option.some.injEq] at h
    simp [← h]
  | cons kt rest ih =>
    intro fs h
    simp only [Tfrecords.parseFields, Option.bind_eq_some, Option.map_eq_some'] at h
    obtain ⟨v, hv, fs2, hfs2, rfl⟩ := h
    simp [ih fs2 hfs2]

/-- Looking up a key in the parsed dictionary reads that key's declared
feature from the serialized example. -/
theorem parseFields_dlookup {D I : Type} (ex : String → Option Tfrecords.Raw) :
    ∀ (spec : List (String × Tfrecords.FType)) (fs : List (String × Tfrecords.TVal D I)),
      Tfrecords.parseFields ex spec = some fs →
      ∀ k : String,
        Tfrecords.dlookup fs k =
          (Tfrecords.dlookup spec k).bind fun t => Tfrecords.readFeature ex (k, t) := by
  intro spec
  induction spec with
  | nil =>
    intro fs h k
    simp only [Tfrecords.parseFields, Option.some.injEq] at h
    simp [← h, Tfrecords.dlookup]
  | cons kt rest ih =>
    intro fs h k
    obtain ⟨k0, t0⟩ := kt
    simp only [Tfrecords.parseFields, Option.bind_eq_some, Option.map_eq_some'] at h
    obtain ⟨v, hv, fs2, hfs2, rfl⟩ := h
    by_cases hk : k0 = k
    · subst hk
      simp [Tfrecords.dlookup, hv]
    · simp [Tfrecords.dlookup, hk, ih fs2 hfs2 k]

/-- Parsing succeeds whenever every declared feature reads successfully. -/
theorem parseFields_isSome {D I : Type} (ex : String → Option Tfrecords.Raw) :
    ∀ spec : List (String × Tfrecords.FType),
      (∀ kt ∈ spec, (Tfrecords.readFeature (D := D) (I := I) ex kt).isSome = true) →
      (Tfrecords.parseFields (D := D) (I := I) ex spec).isSome = true := by
  intro spec
  induction spec with
  | nil => intro _; rfl
  | cons kt rest ih =>
    intro h
    have h1 := h kt (by simp)
    have h2 := ih fun kt2 hm => h kt2 (by simp [hm])
    rcases Option.isSome_iff_exists.mp h1 with ⟨v, hv⟩
    rcases Option.isSome_iff_exists.mp h2 with ⟨fs, hfs⟩
    simp [Tfrecords.parseFields, hv, hfs]

/-- Parsing fails when a fixed-length feature of the spec is absent from the
serialized example. -/
theorem parseFields_missing {D I : Type} (ex : String → Option Tfrecords.Raw)
    (k : String) (t : Tfrecords.FType) :
    ∀ spec : List (String × Tfrecords.FType),
      (k, t) ∈ spec → t ≠ Tfrecords.FType.varlenInt64 → ex k = none →
      Tfrecords.parseFields (D := D) (I := I) ex spec = none := by
  intro spec
  induction spec with
  | nil => intro h; simp at h
  | cons kt rest ih =>
    intro hmem ht hex
    rcases List.mem_cons.mp hmem with heq | hmem2
    · obtain rfl := heq.symm
      cases t with
      | varlenInt64 => exact absurd rfl ht
      | string => simp [Tfrecords.parseFields, Tfrecords.readFeature, hex]
      | int64 => simp [Tfrecords.parseFields, Tfrecords.readFeature, hex]
      | float32 => simp [Tfrecords.parseFields, Tfrecords.readFeature, hex]
    · have hrest := ih hmem2 ht hex
      cases hr : Tfrecords.readFeature (D := D) (I := I) ex kt <;>
        simp [Tfrecords.parseFields, hr, hrest]

/-- `parse_tensor_at` preserves the keys of the dictionary, in order. -/
theorem parse_tensor_at_keys {D I T : Type} (dec : List ℕ → Option T)
    (mk : T → Tfrecords.TVal D I) (k : String) :
    ∀ (fs fs2 : List (String × Tfrecords.TVal D I)),
      Tfrecords.parse_tensor_at dec mk k fs = some fs2 →
      fs2.map Prod.fst = fs.map Prod.fst := by
  intro fs
  induction fs with
  | nil => intro fs2 h; simp [Tfrecords.parse_tensor_at] at h
  | cons e rest ih =>
    intro fs2 h
    obtain ⟨k2, v⟩ := e
    by_cases hk : k2 = k
    · simp only [Tfrecords.parse_tensor_at, if_pos hk] at h
      obtain s | n | q | l | dd | ii := v
      · rcases Option.map_eq_some'.mp h with ⟨t, _, rfl⟩
        simp
      · simp at h
      · simp at h
      · simp at h
      · simp at h
      · simp at h
    · simp only [Tfrecords.parse_tensor_at, if_neg hk] at h
      rcases Option.map_eq_some'.mp h with ⟨rest2, hrest2, rfl⟩
      simp [ih rest2 hrest2]

/-- `parse_tensor_at` leaves every other key's value unchanged. -/
theorem parse_tensor_at_dlookup_ne {D I T : Type} (dec : List ℕ → Option T)
    (mk : T → Tfrecords.TVal D I) (k k3 : String) (hne : k3 ≠ k) :
    ∀ (fs fs2 : List (String × Tfrecords.TVal D I)),
      Tfrecords.parse_tensor_at dec mk k fs = some fs2 →
      Tfrecords.dlookup fs2 k3 = Tfrecords.dlookup fs k3 := by
  intro fs
  induction fs with
  | nil => intro fs2 h; simp [Tfrecords.parse_tensor_at] at h
  | cons e rest ih =>
    intro fs2 h
    obtain ⟨k2, v⟩ := e
    by_cases hk : k2 = k
    · simp only [Tfrecords.parse_tensor_at, if_pos hk] at h
      obtain s | n | q | l | dd | ii := v
      · rcases Option.map_eq_some'.mp h with ⟨t, _, rfl⟩
        have hk23 : k2 ≠ k3 := hk ▸ hne.symm
        simp [Tfrecords.dlookup, hk23]
      · simp at h
      · simp at h
      · simp at h
      · simp at h
      · simp at h
    · simp only [Tfrecords.parse_tensor_at, if_neg hk] at h
      rcases Option.map_eq_some'.mp h with ⟨rest2, hrest2, rfl⟩
      by_cases hk23 : k2 = k3
      · simp [Tfrecords.dlookup, hk23]
      · simp [Tfrecords.dlookup, hk23, ih rest2 hrest2]

/-- After `parse_tensor_at`, the decoded key holds a decoded tensor. -/
theorem parse_tensor_at_dlookup_self {D I T : Type} (dec : List ℕ → Option T)
    (mk : T → Tfrecords.TVal D I) (k : String) :
    ∀ (fs fs2 : List (String × Tfrecords.TVal D I)),
      Tfrecords.parse_tensor_at dec mk k fs = some fs2 →
      ∃ t, Tfrecords.dlookup fs2 k = some (mk t) := by
  intro fs
  induction fs with
  | nil => intro fs2 h; simp [Tfrecords.parse_tensor_at] at h
  | cons e rest ih =>
    intro fs2 h
    obtain ⟨k2, v⟩ := e
    by_cases hk : k2 = k
    · simp only [Tfrecords.parse_tensor_at, if_pos hk] at h
      obtain s | n | q | l | dd | ii := v
      · rcases Option.map_eq_some'.mp h with ⟨t, _, rfl⟩
        exact ⟨t, by simp [Tfrecords.dlookup, hk]⟩
      · simp at h
      · simp at h
      · simp at h
      · simp at h
      · simp at h
    · simp only [Tfrecords.parse_tensor_at, if_neg hk] at h
      rcases Option.map_eq_some'.mp h with ⟨rest2, hrest2, rfl⟩
      rcases ih rest2 hrest2 with ⟨t, ht⟩
      exact ⟨t, by simp [Tfrecords.dlookup, hk, ht]⟩

/-- `parse_tensor_at` succeeds when the key holds a string tensor and the
decoder accepts every input. -/
theorem parse_tensor_at_isSome {D I T : Type} (dec : List ℕ → Option T)
    (mk : T → Tfrecords.TVal D I) (k : String) :
    ∀ fs : List (String × Tfrecords.TVal D I),
      (∃ s, Tfrecords.dlookup fs k = some (Tfrecords.TVal.str s)) →
      (∀ s, (dec s).isSome = true) →
      (Tfrecords.parse_tensor_at dec mk k fs).isSome = true := by
  intro fs
  induction fs with
  | nil => intro h _; rcases h with ⟨s, hs⟩; simp [Tfrecords.dlookup] at hs
  | cons e rest ih =>
    intro h hdec
    rcases h with ⟨s, hs⟩
    obtain ⟨k2, v⟩ := e
    by_cases hk : k2 = k
    · simp only [Tfrecords.dlookup, if_pos hk, Option.some.injEq] at hs
      subst hs
      rcases Option.isSome_iff_exists.mp (hdec s) with ⟨t, ht⟩
      simp [Tfrecords.parse_tensor_at, hk, ht]
    · simp only [Tfrecords.dlookup, if_neg hk] at hs
      have := ih ⟨s, hs⟩ hdec
      rcases Option.isSome_iff_exists.mp this with ⟨rest2, hrest2⟩
      simp [Tfrecords.parse_tensor_at, hk, hrest2]

/-- A successful lookup means the pair is in the association list. -/
theorem dlookup_mem {α : Type} :
    ∀ (l : List (String × α)) (k : String) (v : α),
      Tfrecords.dlookup l k = some v → (k, v) ∈ l := by
  intro l
  induction l with
  | nil => intro k v h; simp [Tfrecords.dlookup] at h
  | cons e rest ih =>
    intro k v h
    obtain ⟨k2, v2⟩ := e
    by_cases hk : k2 = k
    · subst hk
      have h2 : v2 = v := by simpa [Tfrecords.dlookup] using h
      simp [h2]
    · simp only [Tfrecords.dlookup, if_neg hk] at h
      exact List.mem_cons_of_mem _ (ih k v h)

/-- A key among the keys of an association list looks up successfully. -/
theorem dlookup_isSome_of_mem {α : Type} :
    ∀ (l : List (String × α)) (k : String),
      k ∈ l.map Prod.fst → (Tfrecords.dlookup l k).isSome = true := by
  intro l
  induction l with
  | nil => intro k h; simp at h
  | cons e rest ih =>
    intro k h
    obtain ⟨k2, v⟩ := e
    by_cases hk : k2 = k
    · simp [Tfrecords.dlookup, hk]
    · simp only [List.map_cons, List.mem_cons] at h
      rcases h with h | h
      · exact absurd h.symm hk
      · simp [Tfrecords.dlookup, hk, ih k h]

/-- A feature declared `tf.string` reads to a string tensor. -/
theorem readFeature_string {D I : Type} (ex : String → Option Tfrecords.Raw)
    (k : String) (v : Tfrecords.TVal D I) :
    Tfrecords.readFeature ex (k, Tfrecords.FType.string) = some v →
    ∃ s, v = Tfrecords.TVal.str s := by
  intro h
  simp only [Tfrecords.readFeature] at h
  split at h
  · exact ⟨_, (Option.some.inj h).symm⟩
  · simp at h

/-- A feature declared `tf.int64` reads to an int64 scalar. -/
theorem readFeature_int64 {D I : Type} (ex : String → Option Tfrecords.Raw)
    (k : String) (v : Tfrecords.TVal D I) :
    Tfrecords.readFeature ex (k, Tfrecords.FType.int64) = some v →
    ∃ n, v = Tfrecords.TVal.i64 n := by
  intro h
  simp only [Tfrecords.readFeature] at h
  split at h
  · exact ⟨_, (Option.some.inj h).symm⟩
  · simp at h

/-- A feature declared `tf.float32` reads to a float32 scalar. -/
theorem readFeature_float32 {D I : Type} (ex : String → Option Tfrecords.Raw)
    (k : String) (v : Tfrecords.TVal D I) :
    Tfrecords.readFeature ex (k, Tfrecords.FType.float32) = some v →
    ∃ q, v = Tfrecords.TVal.f32 q := by
  intro h
  simp only [Tfrecords.readFeature] at h
  split at h
  · exact ⟨_, (Option.some.inj h).symm⟩
  · simp at h

/-- A variable-length int64 feature reads to an int64 list. -/
theorem readFeature_varlen {D I : Type} (ex : String → Option Tfrecords.Raw)
    (k : String) (v : Tfrecords.TVal D I) :
    Tfrecords.readFeature ex (k, Tfrecords.FType.varlenInt64) = some v →
    ∃ l, v = Tfrecords.TVal.i64s l := by
  intro h
  simp only [Tfrecords.readFeature] at h
  split at h
  · exact ⟨_, (Option.some.inj h).symm⟩
  · exact ⟨_, (Option.some.inj h).symm⟩
  · simp at h

/-- The decoding loop preserves the keys of the dictionary, in order. -/
theorem decode_tensors_keys {D I T : Type} (dec : List ℕ → Option T)
    (mk : T → Tfrecords.TVal D I) :
    ∀ (ks : List String) (fs fs2 : List (String × Tfrecords.TVal D I)),
      Tfrecords.decode_tensors dec mk ks fs = some fs2 →
      fs2.map Prod.fst = fs.map Prod.fst := by
  intro ks
  induction ks with
  | nil =>
    intro fs fs2 h
    simp only [Tfrecords.decode_tensors, Option.some.injEq] at h
    rw [← h]
  | cons k ks ih =>
    intro fs fs2 h
    simp only [Tfrecords.decode_tensors, Option.bind_eq_some] at h
    obtain ⟨fs1, h1, h2⟩ := h
    rw [ih fs1 fs2 h2, parse_tensor_at_keys dec mk k fs fs1 h1]

/-- The decoding loop leaves keys outside its key list unchanged. -/
theorem decode_tensors_dlookup_notmem {D I T : Type} (dec : List ℕ → Option T)
    (mk : T → Tfrecords.TVal D I) (k : String) :
    ∀ (ks : List String) (fs fs2 : List (String × Tfrecords.TVal D I)),
      k ∉ ks → Tfrecords.decode_tensors dec mk ks fs = some fs2 →
      Tfrecords.dlookup fs2 k = Tfrecords.dlookup fs k := by
  intro ks
  induction ks with
  | nil =>
    intro fs fs2 _ h
    simp only [Tfrecords.decode_tensors, Option.some.injEq] at h
    rw [← h]
  | cons k0 ks ih =>
    intro fs fs2 hnm h
    simp only [Tfrecords.decode_tensors, Option.bind_eq_some] at h
    obtain ⟨fs1, h1, h2⟩ := h
    have hne : k ≠ k0 := fun heq => hnm (heq ▸ List.mem_cons_self k0 ks)
    rw [ih fs1 fs2 (fun hm => hnm (List.mem_cons_of_mem k0 hm)) h2,
      parse_tensor_at_dlookup_ne dec mk k0 k hne fs fs1 h1]

/-- After the decoding loop, every key of its (duplicate-free) key list holds
a decoded tensor. -/
theorem decode_tensors_dlookup_mem {D I T : Type} (dec : List ℕ → Option T)
    (mk : T → Tfrecords.TVal D I) (k : String) :
    ∀ (ks : List String) (fs fs2 : List (String × Tfrecords.TVal D I)),
      ks.Nodup → k ∈ ks → Tfrecords.decode_tensors dec mk ks fs = some fs2 →
      ∃ t, Tfrecords.dlookup fs2 k = some (mk t) := by
  intro ks
  induction ks with
  | nil => intro fs fs2 _ hm; simp at hm
  | cons k0 ks ih =>
    intro fs fs2 hnd hm h
    simp only [Tfrecords.decode_tensors, Option.bind_eq_some] at h
    obtain ⟨fs1, h1, h2⟩ := h
    rcases List.mem_cons.mp hm with rfl | hm2
    · rcases parse_tensor_at_dlookup_self dec mk k fs fs1 h1 with ⟨t, ht⟩
      have hnm : k ∉ ks := (List.nodup_cons.mp hnd).1
      exact ⟨t, by rw [decode_tensors_dlookup_notmem dec mk k ks fs1 fs2 hnm h2]; exact ht⟩
    · exact ih fs1 fs2 (List.nodup_cons.mp hnd).2 hm2 h2

/-- The decoding loop succeeds when every key of its (duplicate-free) key
list holds a string tensor and the decoder accepts every input. -/
theorem decode_tensors_isSome {D I T : Type} (dec : List ℕ → Option T)
    (mk : T → Tfrecords.TVal D I) :
    ∀ (ks : List String) (fs : List (String × Tfrecords.TVal D I)),
      ks.Nodup →
      (∀ k ∈ ks, ∃ s, Tfrecords.dlookup fs k = some (Tfrecords.TVal.str s)) →
      (∀ s, (dec s).isSome = true) →
      (Tfrecords.decode_tensors dec mk ks fs).isSome = true := by
  intro ks
  induction ks with
  | nil => intro fs _ _ _; rfl
  | cons k0 ks ih =>
    intro fs hnd hall hdec
    have h0 := parse_tensor_at_isSome dec mk k0 fs (hall k0 (List.mem_cons_self k0 ks)) hdec
    rcases Option.isSome_iff_exists.mp h0 with ⟨fs1, hfs1⟩
    have hall2 : ∀ k ∈ ks, ∃ s, Tfrecords.dlookup fs1 k = some (Tfrecords.TVal.str s) := by
      intro k hk
      have hne : k ≠ k0 := fun heq => (List.nodup_cons.mp hnd).1 (heq ▸ hk)
      rw [parse_tensor_at_dlookup_ne dec mk k0 k hne fs fs1 hfs1]
      exact hall k (List.mem_cons_of_mem k0 hk)
    have := ih fs1 (List.nodup_cons.mp hnd).2 hall2 hdec
    rcases Option.isSome_iff_exists.mp this with ⟨fs2, hfs2⟩
    simp [Tfrecords.decode_tensors, hfs1, hfs2]

/-- C6: the brightness temperature computed by the NetCDF notebook for a band
equals the band-specific calibration formula `(fk2 / ln(fk1/Rad + 1) - bc1) /
bc2` of the claim, for every positive radiance, positive `fk1` and nonzero
`bc2`. -/
theorem brightness_temperature_is_calibration_formula :
    ∀ (ι : Type) (log : ℚ → ℚ) (fk1 fk2 bc1 bc2 : ℚ) (rad : ι → ℚ) (i : ι),
      0 < rad i → 0 < fk1 → bc2 ≠ 0 →
      NetCDF.brightness_temperature log ⟨fk1, fk2, bc1, bc2, rad⟩ i =
        NetCDF.calibration_formula_spec log fk1 fk2 bc1 bc2 (rad i) :=
  fun _ _ _ _ _ _ _ _ _ _ _ => rfl

/-- C6 witness at radiance 1 and unit calibration constants, with the
identity as the abstract logarithm. -/
theorem brightness_temperature_is_calibration_formula_witness :
    NetCDF.brightness_temperature (fun q => q) ⟨1, 1, 1, 1, fun _ => 1⟩ () =
      NetCDF.calibration_formula_spec (fun q => q) 1 1 1 1 1 :=
  brightness_temperature_is_calibration_formula Unit (fun q => q) 1 1 1 1 (fun _ => 1) ()
    (by norm_num) (by norm_num) (by norm_num)

/-- Every example the visualization loop displays has a mask with nonzero
sum, whatever the starting count. -/
theorem visualize_displayed_all_nonzero {α : Type} (masksum : α → ℤ) :
    ∀ (ds : List α) (count : ℕ),
      ((visualize_displayed masksum ds count).all fun f => decide (masksum f ≠ 0)) = true := by
  intro ds
  induction ds with
  | nil => intro count; rfl
  | cons f rest ih =>
    intro count
    by_cases h0 : masksum f = 0
    · simpa [visualize_displayed, h0] using ih count
    · by_cases h1 : count + 1 ≥ 10
      · simp [visualize_displayed, h0, h1]
      · simpa [visualize_displayed, h0, h1] using ih (count + 1)

/-- The loop displays at most `10 - count` further examples when entered with
a current count below 10. -/
theorem visualize_displayed_length {α : Type} (masksum : α → ℤ) :
    ∀ (ds : List α) (count : ℕ), count < 10 →
      (visualize_displayed masksum ds count).length ≤ 10 - count := by
  intro ds
  induction ds with
  | nil => intro count h; simp [visualize_displayed]
  | cons f rest ih =>
    intro count h
    by_cases h0 : masksum f = 0
    · simpa [visualize_displayed, h0] using ih count h
    · by_cases h1 : count + 1 ≥ 10
      · simp only [visualize_displayed, h0, if_false, h1, if_true, List.length_cons,
          List.length_nil]
        omega
      · have hrec := ih (count + 1) (by omega)
        simp only [visualize_displayed, h0, if_false, h1, if_true, List.length_cons]
        omega

/-- C7: for every serialized example providing all required fields (and
total decoders), `parse_example` succeeds; and whenever it returns a
dictionary, that dictionary has exactly the keys of the fixed record schema,
with the nine GOES bands and `brightness_temperature_difference` decoded as
double tensors, the two human masks decoded as int32 tensors,
`n_times_before`, `n_times_after` and `timestamp` as int64 scalars,
`projection_wkt` as a string, the four projection extents as float32
scalars, and `satellite_scan_starts` as a variable-length int64 list. -/
theorem parse_example_schema :
    ∀ (D I : Type) (dec64 : List ℕ → Option D) (dec32 : List ℕ → Option I)
      (ex : String → Option Tfrecords.Raw),
      ((∀ kt ∈ Tfrecords.feature_spec,
          (Tfrecords.readFeature (D := D) (I := I) ex kt).isSome = true) →
        (∀ s, (dec64 s).isSome = true) → (∀ s, (dec32 s).isSome = true) →
        (Tfrecords.parse_example dec64 dec32 ex).isSome = true) ∧
      (∀ d : List (String × Tfrecords.TVal D I),
        Tfrecords.parse_example dec64 dec32 ex = some d →
        d.map Prod.fst = Tfrecords.record_keys ∧
        (∀ k ∈ Tfrecords.tensor_keys,
          ∃ t, Tfrecords.dlookup d k = some (Tfrecords.TVal.f64 t)) ∧
        (∃ t, Tfrecords.dlookup d "human_pixel_masks" = some (Tfrecords.TVal.i32 t)) ∧
        (∃ t, Tfrecords.dlookup d "human_individual_masks" = some (Tfrecords.TVal.i32 t)) ∧
        (∃ n, Tfrecords.dlookup d "n_times_before" = some (Tfrecords.TVal.i64 n)) ∧
        (∃ n, Tfrecords.dlookup d "n_times_after" = some (Tfrecords.TVal.i64 n)) ∧
        (∃ n, Tfrecords.dlookup d "timestamp" = some (Tfrecords.TVal.i64 n)) ∧
        (∃ s, Tfrecords.dlookup d "projection_wkt" = some (Tfrecords.TVal.str s)) ∧
        (∃ q, Tfrecords.dlookup d "col_min" = some (Tfrecords.TVal.f32 q)) ∧
        (∃ q, Tfrecords.dlookup d "row_min" = some (Tfrecords.TVal.f32 q)) ∧
        (∃ q, Tfrecords.dlookup d "col_size" = some (Tfrecords.TVal.f32 q)) ∧
        (∃ q, Tfrecords.dlookup d "row_size" = some (Tfrecords.TVal.f32 q)) ∧
        (∃ l, Tfrecords.dlookup d "satellite_scan_starts" =
          some (Tfrecords.TVal.i64s l))) := by
  intro D I dec64 dec32 ex
  constructor
  · intro hall hd64 hd32
    have hsched : ∀ k ∈ Tfrecords.tensor_keys ++ ["human_pixel_masks", "human_individual_masks"],
        Tfrecords.dlookup Tfrecords.feature_spec k = some Tfrecords.FType.string := by decide
    have h1 := parseFields_isSome (D := D) (I := I) ex Tfrecords.feature_spec hall
    rcases Option.isSome_iff_exists.mp h1 with ⟨fs, hfs⟩
    have hstr : ∀ k ∈ Tfrecords.tensor_keys ++ ["human_pixel_masks", "human_individual_masks"],
        ∃ s, Tfrecords.dlookup fs k = some (Tfrecords.TVal.str s) := by
      intro k hk
      have hspec := hsched k hk
      have hmem := dlookup_mem Tfrecords.feature_spec k Tfrecords.FType.string hspec
      rcases Option.isSome_iff_exists.mp (hall (k, Tfrecords.FType.string) hmem) with ⟨v, hv⟩
      rcases readFeature_string ex k v hv with ⟨s, rfl⟩
      refine ⟨s, ?_⟩
      have hlk := parseFields_dlookup ex Tfrecords.feature_spec fs hfs k
      rw [hspec] at hlk
      rw [hlk]
      exact hv
    have h2 := decode_tensors_isSome dec64 Tfrecords.TVal.f64 Tfrecords.tensor_keys fs
      (by decide) (fun k hk => hstr k (List.mem_append_left _ hk)) hd64
    rcases Option.isSome_iff_exists.mp h2 with ⟨fs2, hfs2⟩
    have hpm : ∃ s, Tfrecords.dlookup fs2 "human_pixel_masks" =
        some (Tfrecords.TVal.str s) := by
      rw [decode_tensors_dlookup_notmem dec64 Tfrecords.TVal.f64 "human_pixel_masks"
        Tfrecords.tensor_keys fs fs2 (by decide) hfs2]
      exact hstr "human_pixel_masks" (by decide)
    have h3 := parse_tensor_at_isSome dec32 Tfrecords.TVal.i32 "human_pixel_masks" fs2 hpm hd32
    rcases Option.isSome_iff_exists.mp h3 with ⟨fs3, hfs3⟩
    have him : ∃ s, Tfrecords.dlookup fs3 "human_individual_masks" =
        some (Tfrecords.TVal.str s) := by
      rw [parse_tensor_at_dlookup_ne dec32 Tfrecords.TVal.i32 "human_pixel_masks"
          "human_individual_masks" (by decide) fs2 fs3 hfs3,
        decode_tensors_dlookup_notmem dec64 Tfrecords.TVal.f64 "human_individual_masks"
          Tfrecords.tensor_keys fs fs2 (by decide) hfs2]
      exact hstr "human_individual_masks" (by decide)
    have h4 := parse_tensor_at_isSome dec32 Tfrecords.TVal.i32 "human_individual_masks" fs3 him hd32
    rcases Option.isSome_iff_exists.mp h4 with ⟨d, hd⟩
    simp [Tfrecords.parse_example, Tfrecords.parse_single_example, hfs, hfs2, hfs3, hd]
  · intro d hparse
    simp only [Tfrecords.parse_example, Tfrecords.parse_single_example,
      Option.bind_eq_some] at hparse
    obtain ⟨fs, hfs, fs2, hfs2, fs3, hfs3, hd⟩ := hparse
    have hkeys : d.map Prod.fst = Tfrecords.record_keys := by
      rw [parse_tensor_at_keys dec32 Tfrecords.TVal.i32 "human_individual_masks" fs3 d hd,
        parse_tensor_at_keys dec32 Tfrecords.TVal.i32 "human_pixel_masks" fs2 fs3 hfs3,
        decode_tensors_keys dec64 Tfrecords.TVal.f64 Tfrecords.tensor_keys fs fs2 hfs2,
        parseFields_keys ex Tfrecords.feature_spec fs hfs]
      decide
    have hpres : ∀ k : String, k ∉ Tfrecords.tensor_keys → k ≠ "human_pixel_masks" →
        k ≠ "human_individual_masks" →
        Tfrecords.dlookup d k = Tfrecords.dlookup fs k := by
      intro k h1 h2 h3
      rw [parse_tensor_at_dlookup_ne dec32 Tfrecords.TVal.i32 "human_individual_masks"
          k h3 fs3 d hd,
        parse_tensor_at_dlookup_ne dec32 Tfrecords.TVal.i32 "human_pixel_masks"
          k h2 fs2 fs3 hfs3,
        decode_tensors_dlookup_notmem dec64 Tfrecords.TVal.f64 k
          Tfrecords.tensor_keys fs fs2 h1 hfs2]
    have hdirect : ∀ (k : String) (t : Tfrecords.FType),
        Tfrecords.dlookup Tfrecords.feature_spec k = some t →
        k ∉ Tfrecords.tensor_keys → k ≠ "human_pixel_masks" →
        k ≠ "human_individual_masks" →
        ∃ v, Tfrecords.dlookup d k = some v ∧
          Tfrecords.readFeature ex (k, t) = some v := by
      intro k t hspec h1 h2 h3
      have hmemk : k ∈ fs.map Prod.fst := by
        rw [parseFields_keys ex Tfrecords.feature_spec fs hfs]
        exact List.mem_map_of_mem Prod.fst (dlookup_mem Tfrecords.feature_spec k t hspec)
      rcases Option.isSome_iff_exists.mp (dlookup_isSome_of_mem fs k hmemk) with ⟨v, hv⟩
      refine ⟨v, by rw [hpres k h1 h2 h3]; exact hv, ?_⟩
      have hlk := parseFields_dlookup ex Tfrecords.feature_spec fs hfs k
      rw [hspec, hv] at hlk
      exact hlk.symm
    refine ⟨hkeys, ?_, ?_, ?_, ?_, ?_, ?_, ?_, ?_, ?_, ?_, ?_, ?_⟩
    · intro k hk
      rcases decode_tensors_dlookup_mem dec64 Tfrecords.TVal.f64 k Tfrecords.tensor_keys
        fs fs2 (by decide) hk hfs2 with ⟨t, ht⟩
      refine ⟨t, ?_⟩
      rw [parse_tensor_at_dlookup_ne dec32 Tfrecords.TVal.i32 "human_individual_masks" k
          (ne_of_mem_of_not_mem hk (by decide)) fs3 d hd,
        parse_tensor_at_dlookup_ne dec32 Tfrecords.TVal.i32 "human_pixel_masks" k
          (ne_of_mem_of_not_mem hk (by decide)) fs2 fs3 hfs3]
      exact ht
    · rcases parse_tensor_at_dlookup_self dec32 Tfrecords.TVal.i32 "human_pixel_masks"
        fs2 fs3 hfs3 with ⟨t, ht⟩
      refine ⟨t, ?_⟩
      rw [parse_tensor_at_dlookup_ne dec32 Tfrecords.TVal.i32 "human_individual_masks"
        "human_pixel_masks" (by decide) fs3 d hd]
      exact ht
    · exact parse_tensor_at_dlookup_self dec32 Tfrecords.TVal.i32 "human_individual_masks"
        fs3 d hd
    · rcases hdirect "n_times_before" Tfrecords.FType.int64 (by decide) (by decide)
        (by decide) (by decide) with ⟨v, hdv, hrv⟩
      rcases readFeature_int64 ex "n_times_before" v hrv with ⟨n, rfl⟩
      exact ⟨n, hdv⟩
    · rcases hdirect "n_times_after" Tfrecords.FType.int64 (by decide) (by decide)
        (by decide) (by decide) with ⟨v, hdv, hrv⟩
      rcases readFeature_int64 ex "n_times_after" v hrv with ⟨n, rfl⟩
      exact ⟨n, hdv⟩
    · rcases hdirect "timestamp" Tfrecords.FType.int64 (by decide) (by decide)
        (by decide) (by decide) with ⟨v, hdv, hrv⟩
      rcases readFeature_int64 ex "timestamp" v hrv with ⟨n, rfl⟩
      exact ⟨n, hdv⟩
    · rcases hdirect "projection_wkt" Tfrecords.FType.string (by decide) (by decide)
        (by decide) (by decide) with ⟨v, hdv, hrv⟩
      rcases readFeature_string ex "projection_wkt" v hrv with ⟨s, rfl⟩
      exact ⟨s, hdv⟩
    · rcases hdirect "col_min" Tfrecords.FType.float32 (by decide) (by decide)
        (by decide) (by decide) with ⟨v, hdv, hrv⟩
      rcases readFeature_float32 ex "col_min" v hrv with ⟨q, rfl⟩
      exact ⟨q, hdv⟩
    · rcases hdirect "row_min" Tfrecords.FType.float32 (by decide) (by decide)
        (by decide) (by decide) with ⟨v, hdv, hrv⟩
      rcases readFeature_float32 ex "row_min" v hrv with ⟨q, rfl⟩
      exact ⟨q, hdv⟩
    · rcases hdirect "col_size" Tfrecords.FType.float32 (by decide) (by decide)
        (by decide) (by decide) with ⟨v, hdv, hrv⟩
      rcases readFeature_float32 ex "col_size" v hrv with ⟨q, rfl⟩
      exact ⟨q, hdv⟩
    · rcases hdirect "row_size" Tfrecords.FType.float32 (by decide) (by decide)
        (by decide) (by decide) with ⟨v, hdv, hrv⟩
      rcases readFeature_float32 ex "row_size" v hrv with ⟨q, rfl⟩
      exact ⟨q, hdv⟩
    · rcases hdirect "satellite_scan_starts" Tfrecords.FType.varlenInt64 (by decide)
        (by decide) (by decide) (by decide) with ⟨v, hdv, hrv⟩
      rcases readFeature_varlen ex "satellite_scan_starts" v hrv with ⟨l, rfl⟩
      exact ⟨l, hdv⟩

/-- C7 witness: on a concrete fully-populated example with trivial decoders,
parsing succeeds and the returned dictionary has exactly the schema keys. -/
theorem parse_example_schema_witness :
    (Tfrecords.parse_example (fun _ => some ()) (fun _ => some ())
      Tfrecords.full_example).isSome = true ∧
    ((Tfrecords.parse_example (fun _ => some ()) (fun _ => some ())
      Tfrecords.full_example).getD []).map Prod.fst = Tfrecords.record_keys :=
  ⟨(parse_example_schema Unit Unit (fun _ => some ()) (fun _ => some ())
      Tfrecords.full_example).1 (by decide) (fun _ => rfl) (fun _ => rfl),
   ((parse_example_schema Unit Unit (fun _ => some ()) (fun _ => some ())
      Tfrecords.full_example).2
     ((Tfrecords.parse_example (fun _ => some ()) (fun _ => some ())
       Tfrecords.full_example).getD []) rfl).1⟩

/-- C8: no operation recovers from an error.  If a fixed-length field is
absent from the serialized example, `parse_example` fails with no partial
result; if opening any band's NetCDF file fails, the loading loop of the
NetCDF notebook propagates one of the underlying open errors unchanged and
builds no dictionary. -/
theorem errors_propagate :
    (∀ (D I : Type) (dec64 : List ℕ → Option D) (dec32 : List ℕ → Option I)
      (ex : String → Option Tfrecords.Raw) (k : String) (t : Tfrecords.FType),
      (k, t) ∈ Tfrecords.feature_spec → t ≠ Tfrecords.FType.varlenInt64 → ex k = none →
      Tfrecords.parse_example dec64 dec32 ex = none) ∧
    (∀ (ι E : Type) (log : ℚ → ℚ) (openDataset : ℕ → Except E (NetCDF.GoesDataset ι))
      (e : E) (b : ℕ),
      b ∈ NetCDF.bt_band_ids → openDataset b = Except.error e →
      ∃ e2, NetCDF.load_brightness_temperatures log openDataset = Except.error e2 ∧
        ∃ b2, b2 ∈ NetCDF.bt_band_ids ∧ openDataset b2 = Except.error e2) := by
  constructor
  · intro D I dec64 dec32 ex k t hmem ht hex
    have h0 := parseFields_missing (D := D) (I := I) ex k t Tfrecords.feature_spec hmem ht hex
    simp [Tfrecords.parse_example, Tfrecords.parse_single_example, h0]
  · intro ι E log openDataset e b hb hberr
    cases h11 : openDataset 11 with
    | error e1 =>
      exact ⟨e1, by simp [NetCDF.load_brightness_temperatures, NetCDF.bt_band_ids,
        NetCDF.load_bt_loop, h11], 11, by simp [NetCDF.bt_band_ids], h11⟩
    | ok ds1 =>
      cases h14 : openDataset 14 with
      | error e2 =>
        exact ⟨e2, by simp [NetCDF.load_brightness_temperatures, NetCDF.bt_band_ids,
          NetCDF.load_bt_loop, h11, h14], 14, by simp [NetCDF.bt_band_ids], h14⟩
      | ok ds2 =>
        cases h15 : openDataset 15 with
        | error e3 =>
          exact ⟨e3, by simp [NetCDF.load_brightness_temperatures, NetCDF.bt_band_ids,
            NetCDF.load_bt_loop, h11, h14, h15], 15, by simp [NetCDF.bt_band_ids], h15⟩
        | ok ds3 =>
          exfalso
          have hb3 : b = 11 ∨ b = 14 ∨ b = 15 := by
            simpa [NetCDF.bt_band_ids] using hb
          rcases hb3 with rfl | rfl | rfl
          · rw [hberr] at h11; exact Except.noConfusion h11
          · rw [hberr] at h14; exact Except.noConfusion h14
          · rw [hberr] at h15; exact Except.noConfusion h15

/-- C8 witness: a wholly absent example fails to parse, and an
always-failing open aborts the NetCDF loading loop with its error. -/
theorem errors_propagate_witness :
    Tfrecords.parse_example (fun _ => (some () : Option Unit))
      (fun _ => (some () : Option Unit)) (fun _ => (none : Option Tfrecords.Raw)) = none ∧
    ∃ e2, NetCDF.load_brightness_temperatures (fun q => q)
        (fun _ => (Except.error "io" : Except String (NetCDF.GoesDataset Unit))) =
          Except.error e2 ∧
      ∃ b2, b2 ∈ NetCDF.bt_band_ids ∧
        (fun _ => (Except.error "io" : Except String (NetCDF.GoesDataset Unit))) b2 =
          Except.error e2 :=
  ⟨errors_propagate.1 Unit Unit (fun _ => some ()) (fun _ => some ()) (fun _ => none)
      "timestamp" Tfrecords.FType.int64 (by decide) (by decide) rfl,
   errors_propagate.2 Unit String (fun q => q)
      (fun _ => Except.error "io") "io" 11 (by decide) rfl⟩

/-- C10: the visualization loop of `load_tfrecords.ipynb` displays only
examples whose `human_pixel_masks` sum to a nonzero total, keeps the
invariant that at most `10 - count` further examples are displayed from any
iteration with `count < 10`, and displays at most 10 examples in total. -/
theorem visualization_loop_invariant :
    ∀ (α : Type) (masksum : α → ℤ) (ds : List α),
      ((visualize_displayed masksum ds 0).all fun f => decide (masksum f ≠ 0)) = true ∧
      (∀ count : ℕ, count < 10 → (visualize_displayed masksum ds count).length ≤ 10 - count) ∧
      (visualize_displayed masksum ds 0).length ≤ 10 := by
  intro α masksum ds
  refine ⟨visualize_displayed_all_nonzero masksum ds 0,
    fun count h => visualize_displayed_length masksum ds count h, ?_⟩
  simpa using visualize_displayed_length masksum ds 0 (by norm_num)

/-- C10 witness: a concrete stream of masks, the all-zero one skipped and at
most ten displayed. -/
theorem visualization_loop_invariant_witness :
    ((visualize_displayed (fun l => l.sum) [[(1 : ℤ)], [0], [2]] 0).all
      fun f => decide ((fun l => l.sum) f ≠ 0)) = true ∧
    (visualize_displayed (fun l => l.sum) [[(1 : ℤ)], [0], [2]] 0).length ≤ 10 - 0 :=
  ⟨(visualization_loop_invariant (List ℤ) (fun l => l.sum) [[1], [0], [2]]).1,
   (visualization_loop_invariant (List ℤ) (fun l => l.sum) [[1], [0], [2]]).2.1 0
     (by norm_num)⟩

end Contrails
